import Mathlib

/-!
Verification of the greasetools value-synchronization core (`src/values.ts`,
`checkGrants` from `lib/index.js`) against its specification.

The embedding models the GreaseMonkey host as an optional record of grants,
the GM key-value store and `localStorage` as association lists, and a JS
promise's observable fate as `POutcome` (resolved / rejected / never settles).
Backend failures are modelled by a set of keys on which GM operations reject.
Each function below is a direct translation of the corresponding TypeScript
function, including its use of JS truthiness and the exact keys it touches.
-/

namespace GreaseTools

/-- A `GM.Value`: the TypeScript union `string | number | boolean`. -/
inductive GMValue where
  | str : String → GMValue
  | num : Int → GMValue
  | boolean : Bool → GMValue
deriving DecidableEq, Repr

/-- JS truthiness for a `GM.Value` (used by `if (value)` in `getWithDefault`). -/
def truthy : GMValue → Bool
  | .str s => s != ""
  | .num n => n != 0
  | .boolean b => b

/-- Whether a `GM.Value` is a string (`typeof value === 'string'`). -/
def isString : GMValue → Bool
  | .str _ => true
  | _ => false

/-- JS string coercion of a `GM.Value` (what `localStorage.setItem` stores). -/
def jsToString : GMValue → String
  | .str s => s
  | .num n => toString n
  | .boolean b => if b then "true" else "false"

/-- The properties a `GM` host object may expose; each is an independent grant. -/
structure Grants where
  getValue : Bool
  setValue : Bool
  deleteValue : Bool
  listValues : Bool
deriving DecidableEq, Repr

/-- Names of grants, as passed to `checkGrants`. -/
inductive GrantName where
  | getValue
  | setValue
  | deleteValue
  | listValues
deriving DecidableEq, Repr

/-- Whether the grant name is a property of the `GM` object (`grant in GM`). -/
def hasGrant (g : Grants) : GrantName → Bool
  | .getValue => g.getValue
  | .setValue => g.setValue
  | .deleteValue => g.deleteValue
  | .listValues => g.listValues

/-- `checkGrants` from `lib/index.js`: false if the `GM` object is absent, false
if any requested grant is missing from it, true otherwise. -/
def checkGrants (gmObj : Option Grants) (gs : List GrantName) : Bool :=
  match gmObj with
  | none => false
  | some g => if gs.any (fun n => ! hasGrant g n) then false else true

/-- `prefixKey` from `values.ts`: ``prefix ? `${prefix}.${key}` : key``.
An empty-string id is falsy in JS, so it leaves the key bare. -/
def prefixKey ( key : String) (pfx : Option String) : String :=
  match pfx with
  | some p => if p == "" then key else p ++ "." ++ key
  | none => key

/-- A JS error value. -/
inductive JsErr where
  | typeError (msg : String)
  | backendFailure
deriving DecidableEq, Repr

/-- The observable fate of a JS promise: resolved with a value, rejected with an
optional reason (`reject()` carries none), or pending forever (never settles). -/
inductive POutcome (α : Type) where
  | resolved : α → POutcome α
  | rejected : Option JsErr → POutcome α
  | pending : POutcome α
deriving DecidableEq, Repr

/-- Update-or-append on an association list: the effect of `obj[key] = value`
on a JS object, or of `GM.setValue` / `localStorage.setItem` on a store. -/
def setAssoc {β : Type} (l : List (String × β)) (k : String) (v : β) :
    List (String × β) :=
  match l with
  | [] => [(k, v)]
  | kv :: rest => if kv.1 == k then (k, v) :: rest else kv :: setAssoc rest k v

/-- Remove a key from an association list (`delete obj[key]`, `GM.deleteValue`,
`localStorage.removeItem`). -/
def removeKey {β : Type} (l : List (String × β)) (k : String) :
    List (String × β) :=
  l.filter (fun kv => kv.1 != k)

/-- Whether a key is present in an association list (`prop in target`). -/
def hasKey {β : Type} (l : List (String × β)) (k : String) : Bool :=
  (l.lookup k).isSome

/-- The GM extension store: its contents, plus the set of keys on which the
host rejects `GM.getValue` / `GM.setValue` / `GM.deleteValue` calls. -/
structure GMBackend where
  store : List (String × GMValue)
  failing : List String
deriving DecidableEq, Repr

/-- `GM.getValue(k)`: rejects on a failing key, otherwise resolves with the
stored value or `undefined` (`none`). -/
def gmGetValue (b : GMBackend) (k : String) : Except JsErr (Option GMValue) :=
  if b.failing.contains k then .error .backendFailure
  else .ok (b.store.lookup k)

/-- `GM.setValue(k, v)`: rejects on a failing key, otherwise stores the value. -/
def gmSetValue (b : GMBackend) (k : String) (v : GMValue) :
    Except JsErr GMBackend :=
  if b.failing.contains k then .error .backendFailure
  else .ok ⟨setAssoc b.store k v, b.failing⟩

/-- `GM.deleteValue(k)`: rejects on a failing key, otherwise removes the key. -/
def gmDeleteValue (b : GMBackend) (k : String) : Except JsErr GMBackend :=
  if b.failing.contains k then .error .backendFailure
  else .ok ⟨removeKey b.store k, b.failing⟩

/-- `ensureString` from `values.ts`: throws a `TypeError` unless every value
is a string. -/
def ensureString (vals : List GMValue) : Except JsErr Unit :=
  if vals.all isString then .ok ()
  else .error (.typeError
    "Only strings are supported for values when localStorage is being used")

/-- `getWithDefault` inside `getValues`: reads the prefixed key; a truthy value
resolves as-is; otherwise, when `setDefaults`, runs `await GM.setValue(key,
defaultValue)` with the BARE key (as the source does) and resolves with the
default. When the `setValue` member is absent from the `GM` object (the grant
is missing) that call throws; that throw, like a rejected `await`, happens
inside the `new Promise(async resolve => ...)` executor and is swallowed, so
the promise never settles (`pending`) and no write lands. Returns the outcome
paired with the backend state after the call. -/
def getWithDefault (gmObj : Option Grants) (setDefaults : Bool)
    (b : GMBackend) ( key : String) (defaultValue : GMValue)
    (id : Option String) : POutcome (String × GMValue) × GMBackend :=
  let pk := prefixKey key id
  let useDefault : POutcome (String × GMValue) × GMBackend :=
    if setDefaults then
      if checkGrants gmObj [GrantName.setValue] then
        match gmSetValue b key defaultValue with
        | .error _ => (.pending, b)
        | .ok b2 => (.resolved (key, defaultValue), b2)
      else (.pending, b)
    else (.resolved (key, defaultValue), b)
  match gmGetValue b pk with
  | .error _ => (.pending, b)
  | .ok (some w) => if truthy w then (.resolved (key, w), b) else useDefault
  | .ok none => useDefault

/-- `Promise.all`: rejects if some input rejects, resolves once all resolve,
and otherwise (some input never settles) never settles. -/
def promiseAll {α : Type} : List (POutcome α) → POutcome (List α)
  | [] => .resolved []
  | p :: rest =>
    match p with
    | .rejected e => .rejected e
    | .pending =>
      match promiseAll rest with
      | .rejected e => .rejected e
      | _ => .pending
    | .resolved a =>
      match promiseAll rest with
      | .resolved rs => .resolved (a :: rs)
      | .rejected e => .rejected e
      | .pending => .pending

/-- Build a JS object from key/value pairs by successive assignment
(`returnedValues[key] = value`). -/
def buildObj (kvs : List (String × GMValue)) : List (String × GMValue) :=
  kvs.foldl (fun acc kv => setAssoc acc kv.1 kv.2) []

/-- Everything observable after a `getValues` call: the promise's fate, the
final GM store, the final `localStorage`, and the contents of the caller's
`defaults` object after the call returns. -/
structure GetValuesResult where
  outcome : POutcome (List (String × GMValue))
  gm : GMBackend
  ls : List (String × String)
  defaultsAfter : List (String × GMValue)
deriving DecidableEq, Repr

/-- One step of the extension-store fan-out loop of `getValues`. -/
def gvStep (gmObj : Option Grants) (setDefaults : Bool) (id : Option String)
    (acc : GMBackend × List (POutcome (String × GMValue)))
    (kv : String × GMValue) :
    GMBackend × List (POutcome (String × GMValue)) :=
  let r := getWithDefault gmObj setDefaults acc.1 kv.1 kv.2 id
  (r.2, acc.2 ++ [r.1])

/-- One step of the localStorage loop of `getValues`: reads the BARE key (this
branch of the source never calls `prefixKey`), writes the default only when
`setDefaults`, and records `value ?? defaultValue`. -/
def lsStep (setDefaults : Bool)
    (acc : List (String × String) × List (String × GMValue))
    (kv : String × GMValue) :
    List (String × String) × List (String × GMValue) :=
  let v := acc.1.lookup kv.1
  let ls2 := match v with
    | none => if setDefaults then setAssoc acc.1 kv.1 (jsToString kv.2) else acc.1
    | some _ => acc.1
  let rv := match v with
    | some s => GMValue.str s
    | none => kv.2
  (ls2, setAssoc acc.2 kv.1 rv)

/-- `getValues` from `values.ts`. Computes the grants flag by the source's
ternary (`setDefaults ? checkGrants('getValue') : checkGrants('getValue',
'setValue')`), then either fans out `getWithDefault` over the defaults and
joins with `Promise.all`, or — grants absent — validates all defaults are
strings (rejecting with the `TypeError` otherwise, before touching storage)
and walks localStorage. The source never assigns into `defaults`, so
`defaultsAfter` is `defaults` in every branch. -/
def getValues (gmObj : Option Grants) (b : GMBackend)
    (ls : List (String × String)) (defaults : List (String × GMValue))
    (id : Option String) (setDefaults : Bool) : GetValuesResult :=
  let grants := if setDefaults then checkGrants gmObj [GrantName.getValue]
    else checkGrants gmObj [GrantName.getValue, GrantName.setValue]
  if grants then
    let fanned := defaults.foldl (gvStep gmObj setDefaults id) (b, [])
    let outcome := match promiseAll fanned.2 with
      | .resolved kvs => .resolved (buildObj kvs)
      | .rejected e => .rejected e
      | .pending => .pending
    ⟨outcome, fanned.1, ls, defaults⟩
  else
    match ensureString (defaults.map (fun kv => kv.2)) with
    | .error e => ⟨.rejected (some e), b, ls, defaults⟩
    | .ok _ =>
      let r := defaults.foldl (lsStep setDefaults) (ls, [])
      ⟨.resolved r.2, b, r.1, defaults⟩

/-- Everything observable after a `deleteValue` call. -/
structure DeleteValueResult where
  outcome : POutcome (List (String × GMValue))
  gm : GMBackend
  ls : List (String × String)
  valuesAfter : List (String × GMValue)
deriving DecidableEq, Repr

/-- `deleteValue` from `values.ts`: if the key is in the values object, deletes
the PREFIXED key from the selected backend, removes the key from the object
and resolves with it (the trailing `reject()` is a no-op on a settled
promise); otherwise rejects with no payload, touching nothing. A rejected
`await GM.deleteValue` is swallowed by the async executor (`pending`). -/
def deleteValue (gmObj : Option Grants) (b : GMBackend)
    (ls : List (String × String)) (values : List (String × GMValue))
    (toDelete : String) (id : Option String) : DeleteValueResult :=
  let pk := prefixKey toDelete id
  if hasKey values toDelete then
    if checkGrants gmObj [GrantName.deleteValue] then
      match gmDeleteValue b pk with
      | .error _ => ⟨.pending, b, ls, values⟩
      | .ok b2 =>
        let v2 := removeKey values toDelete
        ⟨.resolved v2, b2, ls, v2⟩
    else
      let v2 := removeKey values toDelete
      ⟨.resolved v2, b, removeKey ls pk, v2⟩
  else ⟨.rejected none, b, ls, values⟩

deriving instance DecidableEq for Except

/-- Everything observable after one assignment through a `valuesProxy`:
what the set trap returned (or the error it threw), the values object, both
backends, and how many backend writes the assignment dispatched. -/
structure ProxySetResult where
  trapResult : Except JsErr Bool
  values : List (String × GMValue)
  gm : GMBackend
  ls : List (String × String)
  writesDispatched : Nat
deriving DecidableEq, Repr

/-- The set trap of `valuesProxy` from `values.ts`: for a key present in the
target it dispatches exactly one backend write to the prefixed key —
`GM.setValue` fire-and-forget when the `setValue` grant is present (a
rejection is only observable through the callback), otherwise
`localStorage.setItem` after `ensureString([value])` (which throws a
`TypeError` on a non-string, leaving everything untouched) — then applies
`Reflect.set` (true on a plain object); for an absent key it returns false. -/
def valuesProxySet (gmObj : Option Grants) (b : GMBackend)
    (ls : List (String × String)) (values : List (String × GMValue))
    (id : Option String) (prop : String) (value : GMValue) : ProxySetResult :=
  let grants := checkGrants gmObj [GrantName.setValue]
  let pk := prefixKey prop id
  if hasKey values prop then
    if grants then
      let b2 := match gmSetValue b pk value with
        | .ok nb => nb
        | .error _ => b
      ⟨.ok true, setAssoc values prop value, b2, ls, 1⟩
    else
      match ensureString [value] with
      | .error e => ⟨.error e, values, b, ls, 0⟩
      | .ok _ =>
        ⟨.ok true, setAssoc values prop value, b,
          setAssoc ls pk (jsToString value), 1⟩
  else ⟨.ok false, values, b, ls, 0⟩

/-- The get trap of `valuesGetProxy` from `values.ts`: a key present in the
target yields a fresh backend read of the prefixed key — resolving with a
defined GM value, rejecting with no payload on `undefined` (and never
settling if `GM.getValue` itself rejects, since the rejection is unhandled),
or, without the `getValue` grant, resolving with a non-null
`localStorage.getItem` result and rejecting on null; an absent key rejects
with no payload. -/
def valuesGetProxyGet (gmObj : Option Grants) (b : GMBackend)
    (ls : List (String × String)) (values : List (String × GMValue))
    (id : Option String) (prop : String) : POutcome GMValue :=
  let grants := checkGrants gmObj [GrantName.getValue]
  let pk := prefixKey prop id
  if hasKey values prop then
    if grants then
      match gmGetValue b pk with
      | .error _ => .pending
      | .ok (some v) => .resolved v
      | .ok none => .rejected none
    else
      match ls.lookup pk with
      | some s => .resolved (.str s)
      | none => .rejected none
  else .rejected none

/-- The set trap of `valuesGetProxy`: `set() { return false }` — it refuses
every write unconditionally, changing nothing. -/
def valuesGetProxySet (_values : List (String × GMValue)) (_prop : String)
    (_value : GMValue) : Bool :=
  false

/-- Updating an association list and looking up the updated key finds the new
value. -/
theorem setAssoc_lookup_self {β : Type} (l : List (String × β)) (k : String)
    (v : β) : (setAssoc l k v).lookup k = some v := by
  induction l with
  | nil => simp [setAssoc, List.lookup]
  | cons kv rest ih =>
    by_cases h : kv.1 = k
    · simp [setAssoc, h, List.lookup]
    · have hb : (k == kv.1) = false := by simp [Ne.symm h]
      simp [setAssoc, h, List.lookup, hb, ih]

/-- Updating an association list leaves lookups of other keys unchanged. -/
theorem setAssoc_lookup_ne {β : Type} (l : List (String × β)) (k k2 : String)
    (v : β) (h : k2 ≠ k) : (setAssoc l k v).lookup k2 = l.lookup k2 := by
  have hb : (k2 == k) = false := by simp [h]
  induction l with
  | nil => simp [setAssoc, List.lookup, hb]
  | cons kv rest ih =>
    by_cases hk : kv.1 = k
    · simp [setAssoc, hk, List.lookup, hb, hk ▸ hb]
    · simp [setAssoc, hk, List.lookup, ih]

/-- Removing a key from an association list removes its binding. -/
theorem removeKey_lookup_self {β : Type} (l : List (String × β)) (k : String) :
    (removeKey l k).lookup k = none := by
  induction l with
  | nil => simp [removeKey]
  | cons kv rest ih =>
    by_cases h : kv.1 = k
    · simpa [removeKey, h] using ih
    · have hb : (k == kv.1) = false := by simp [Ne.symm h]
      have hne : (kv.1 != k) = true := by simp [h]
      simp only [removeKey, List.filter_cons, hne, if_true] at ih ⊢
      simpa [List.lookup, hb] using ih

/-- With `setDefaults` false, `getWithDefault` never writes: the backend state
it returns is the one it was given. -/
theorem getWithDefault_false_snd (gmObj : Option Grants) (b : GMBackend)
    (k : String) (d : GMValue) (id : Option String) :
    (getWithDefault gmObj false b k d id).2 = b := by
  unfold getWithDefault
  cases h : gmGetValue b (prefixKey k id) with
  | error e => simp [h]
  | ok v =>
    cases v with
    | none => simp [h]
    | some w => by_cases ht : truthy w <;> simp [h, ht]

/-- The stored-vs-default value `getWithDefault` resolves with when its read
succeeds: the stored value when truthy, the default otherwise. -/
def reconciledValue (b : GMBackend) ( key : String) (d : GMValue)
    (id : Option String) : GMValue :=
  match b.store.lookup (prefixKey key id) with
  | some w => if truthy w then w else d
  | none => d

/-- With `setDefaults` false and a non-failing key, `getWithDefault` resolves
with the reconciled value. -/
theorem getWithDefault_false_fst (gmObj : Option Grants) (b : GMBackend)
    (k : String) (d : GMValue) (id : Option String)
    (hf : b.failing.contains (prefixKey k id) = false) :
    (getWithDefault gmObj false b k d id).1 =
      POutcome.resolved (k, reconciledValue b k d id) := by
  have h : gmGetValue b (prefixKey k id) =
      Except.ok (b.store.lookup (prefixKey k id)) := by
    unfold gmGetValue
    rw [hf]
    simp
  unfold getWithDefault
  cases hl : b.store.lookup (prefixKey k id) with
  | none => simp [h, hl, reconciledValue]
  | some w =>
    by_cases ht : truthy w <;> simp [h, hl, ht, reconciledValue]

/-- With `setDefaults` false the fan-out loop of `getValues` leaves the backend
untouched and collects one `getWithDefault` outcome per default, in order. -/
theorem gv_foldl_false (gmObj : Option Grants) (id : Option String)
    (b : GMBackend) (defaults : List (String × GMValue))
    (acc : List (POutcome (String × GMValue))) :
    defaults.foldl (gvStep gmObj false id) (b, acc) =
      (b, acc ++ defaults.map
        (fun kv => (getWithDefault gmObj false b kv.1 kv.2 id).1)) := by
  induction defaults generalizing acc with
  | nil => simp
  | cons kv rest ih =>
    simp only [List.foldl_cons, List.map_cons]
    rw [show gvStep gmObj false id (b, acc) kv =
        (b, acc ++ [(getWithDefault gmObj false b kv.1 kv.2 id).1]) by
      simp [gvStep, getWithDefault_false_snd]]
    rw [ih]
    simp

/-- `Promise.all` over a list of already-resolved promises resolves with the
list of their values. -/
theorem promiseAll_map_resolved {α β : Type} (f : β → α) (l : List β) :
    promiseAll (l.map (fun x => POutcome.resolved (f x))) =
      POutcome.resolved (l.map f) := by
  induction l with
  | nil => rfl
  | cons x rest ih => simp [promiseAll, ih]

/-- Key-preserving maps commute with association-list lookup. -/
theorem lookup_map_keyed {β γ : Type} (g : String → β → γ)
    (l : List (String × β)) (k : String) (d : β) (h : l.lookup k = some d) :
    (l.map (fun kv => (kv.1, g kv.1 kv.2))).lookup k = some (g k d) := by
  induction l with
  | nil => simp [List.lookup] at h
  | cons kv rest ih =>
    by_cases hk : k = kv.1
    · simp [List.lookup, hk] at h
      simp [List.lookup, hk, h]
    · have hb : (k == kv.1) = false := by simp [hk]
      simp [List.lookup, hb] at h
      simpa [List.lookup, hb] using ih h

/-- Folding assignments whose keys avoid `k` does not change the binding of
`k`. -/
theorem foldl_setAssoc_lookup_not_mem {β : Type} (l : List (String × β))
    (acc : List (String × β)) (k : String) (h : k ∉ l.map Prod.fst) :
    (l.foldl (fun a kv => setAssoc a kv.1 kv.2) acc).lookup k =
      acc.lookup k := by
  induction l generalizing acc with
  | nil => rfl
  | cons kv rest ih =>
    simp only [List.map_cons, List.mem_cons, not_or] at h
    simp only [List.foldl_cons]
    rw [ih _ h.2, setAssoc_lookup_ne _ _ _ _ h.1]

/-- Building a JS object by successive assignment from pairs with distinct
keys preserves association-list lookup. -/
theorem buildObj_lookup (kvs : List (String × GMValue)) (k : String)
    (v : GMValue) (hnd : (kvs.map Prod.fst).Nodup) (h : kvs.lookup k = some v) :
    (buildObj kvs).lookup k = some v := by
  have main : ∀ (l : List (String × GMValue)) (acc : List (String × GMValue)),
      (l.map Prod.fst).Nodup → l.lookup k = some v →
      (l.foldl (fun a kv => setAssoc a kv.1 kv.2) acc).lookup k = some v := by
    intro l
    induction l with
    | nil => intro acc _ hl; simp [List.lookup] at hl
    | cons kv rest ih =>
      intro acc hnd2 hl
      simp only [List.map_cons, List.nodup_cons] at hnd2
      by_cases hk : k = kv.1
      · simp [List.lookup, hk] at hl
        simp only [List.foldl_cons]
        rw [foldl_setAssoc_lookup_not_mem rest _ k (hk ▸ hnd2.1)]
        rw [hk, setAssoc_lookup_self, hl]
      · have hb : (k == kv.1) = false := by simp [hk]
        simp [List.lookup, hb] at hl
        simpa only [List.foldl_cons] using ih _ hnd2.2 hl
  exact main kvs [] hnd h

/-- Folding the localStorage loop over keys that avoid `k` changes neither the
stored binding of `k` nor its binding in the object being built. -/
theorem ls_fold_not_mem (sd : Bool) (l : List (String × GMValue))
    (acc : List (String × String) × List (String × GMValue)) (k : String)
    (h : k ∉ l.map Prod.fst) :
    (l.foldl (lsStep sd) acc).1.lookup k = acc.1.lookup k ∧
    (l.foldl (lsStep sd) acc).2.lookup k = acc.2.lookup k := by
  induction l generalizing acc with
  | nil => exact ⟨rfl, rfl⟩
  | cons kv rest ih =>
    simp only [List.map_cons, List.mem_cons, not_or] at h
    simp only [List.foldl_cons]
    have step1 : (lsStep sd acc kv).1.lookup k = acc.1.lookup k := by
      unfold lsStep
      cases acc.1.lookup kv.1 with
      | some s => rfl
      | none =>
        by_cases hsd : sd
        · simp [hsd, setAssoc_lookup_ne _ _ _ _ h.1]
        · simp [hsd]
    have step2 : (lsStep sd acc kv).2.lookup k = acc.2.lookup k := by
      unfold lsStep
      exact setAssoc_lookup_ne _ _ _ _ h.1
    have := ih (lsStep sd acc kv) h.2
    exact ⟨this.1.trans step1, this.2.trans step2⟩

/-- The localStorage loop of `getValues` over distinct keys: a key whose
stored value is absent at the start resolves to its default, and its default
is written back exactly when `setDefaults` is set. -/
theorem ls_fold_spec (sd : Bool) (l : List (String × GMValue)) (k : String)
    (d : GMValue) (acc : List (String × String) × List (String × GMValue))
    (hnd : (l.map Prod.fst).Nodup) (hl : l.lookup k = some d)
    (hib : acc.1.lookup k = none) :
    (l.foldl (lsStep sd) acc).2.lookup k = some d ∧
    (l.foldl (lsStep sd) acc).1.lookup k =
      (if sd then some (jsToString d) else none) := by
  induction l generalizing acc with
  | nil => simp [List.lookup] at hl
  | cons kv rest ih =>
    simp only [List.map_cons, List.nodup_cons] at hnd
    simp only [List.foldl_cons]
    by_cases hk : k = kv.1
    · simp only [List.lookup, hk, beq_self_eq_true, Option.some.injEq] at hl
      have hread : acc.1.lookup kv.1 = none := by rw [← hk]; exact hib
      have hstep : lsStep sd acc kv =
          ((if sd then setAssoc acc.1 kv.1 (jsToString kv.2) else acc.1),
            setAssoc acc.2 kv.1 kv.2) := by
        unfold lsStep
        rw [hread]
      have hnm : k ∉ rest.map Prod.fst := by rw [hk]; exact hnd.1
      have hrest := ls_fold_not_mem sd rest (lsStep sd acc kv) k hnm
      constructor
      · rw [hrest.2, hstep]
        dsimp only
        rw [hk, setAssoc_lookup_self, hl]
      · rw [hrest.1, hstep]
        by_cases hsd : sd
        · simp only [hsd, if_true]
          rw [hk, setAssoc_lookup_self, hl]
        · simp only [hsd, Bool.false_eq_true, if_false]
          exact hib
    · have hb : (k == kv.1) = false := by simp [hk]
      simp only [List.lookup, hb] at hl
      have hib2 : (lsStep sd acc kv).1.lookup k = none := by
        unfold lsStep
        cases hv : acc.1.lookup kv.1 with
        | some s => exact hib
        | none =>
          by_cases hsd : sd
          · simp only [hsd, if_true]
            rw [setAssoc_lookup_ne _ _ _ _ hk]
            exact hib
          · simpa [hsd] using hib
      exact ih (lsStep sd acc kv) hnd.2 hl hib2

/-- C1: the claimed backend-selection policy fails in the code: with the
`getValue` grant present, `setValue` absent and `setDefaults` false, the first
call below ignores the value already in the GM store and answers the default
out of localStorage (the code demands `getValue` AND `setValue` when
`setDefaults` is false); symmetrically, with `setDefaults` true the same
grants DO select the GM store (second conjunct), showing the two ternary arms
are swapped relative to the claim and to the function's own documentation. -/
theorem c1_getValues_grant_selection_inverted :
    (getValues (some ⟨true, false, false, false⟩)
        ⟨[("k", GMValue.str "stored")], []⟩ [] [("k", GMValue.str "d")]
        none false).outcome
      = POutcome.resolved [("k", GMValue.str "d")] ∧
    (getValues (some ⟨true, false, false, false⟩)
        ⟨[("k", GMValue.str "stored")], []⟩ [] [("k", GMValue.str "d")]
        none true).outcome
      = POutcome.resolved [("k", GMValue.str "stored")] :=
  ⟨rfl, rfl⟩

/-- C2: with namespace id "ns" and both the getValue and setValue grants, the
extension path's default-write lands under the BARE key "greeting" rather
than "ns.greeting" (first two conjuncts), the localStorage path reads the
bare key and so misses a value stored under "ns.greeting" (third conjunct),
and the localStorage default-write also lands under the bare key (fourth
conjunct), contradicting the claim that every physical access uses the
prefixed key. -/
theorem c2_namespace_id_not_applied_to_writes :
    (getValues (some ⟨true, true, false, false⟩) ⟨[], []⟩ []
        [("greeting", GMValue.str "hi")] (some "ns") true).gm.store.lookup
        "ns.greeting" = none ∧
    (getValues (some ⟨true, true, false, false⟩) ⟨[], []⟩ []
        [("greeting", GMValue.str "hi")] (some "ns") true).gm.store.lookup
        "greeting" = some (GMValue.str "hi") ∧
    (getValues none ⟨[], []⟩ [("ns.greeting", "stored")]
        [("greeting", GMValue.str "hi")] (some "ns") false).outcome
      = POutcome.resolved [("greeting", GMValue.str "hi")] ∧
    (getValues none ⟨[], []⟩ [] [("greeting", GMValue.str "hi")]
        (some "ns") true).ls = [("greeting", "hi")] :=
  ⟨rfl, rfl, rfl, rfl⟩

/-- C3: when `GM.getValue` rejects for key "a", the per-key promise's async
executor swallows the rejection, so the `getValues` promise never settles —
it neither delivers a partial result nor rejects, contradicting the claim
that the whole call rejects with the failure. -/
theorem c3_backend_failure_never_settles :
    (getValues (some ⟨true, true, false, false⟩) ⟨[], ["a"]⟩ []
        [("a", GMValue.str "x")] none false).outcome = POutcome.pending :=
  rfl

/-- C10: `getValues` never mutates its `defaults` argument: in every branch
(extension store, localStorage, and the TypeError rejection) the caller's
defaults object maps every key to the originally supplied default afterwards,
the resolved object being built by fresh assignment. -/
theorem c10_getValues_never_mutates_defaults (gmObj : Option Grants)
    (b : GMBackend) (ls : List (String × String))
    (defaults : List (String × GMValue)) (id : Option String)
    (setDefaults : Bool) :
    (getValues gmObj b ls defaults id setDefaults).defaultsAfter =
      defaults := by
  unfold getValues
  by_cases hg : (if setDefaults then checkGrants gmObj [GrantName.getValue]
      else checkGrants gmObj [GrantName.getValue, GrantName.setValue]) = true
  · simp only [hg, if_true]
  · simp only [Bool.not_eq_true] at hg
    cases h : ensureString (defaults.map (fun kv => kv.2)) with
    | error e => simp [hg, h]
    | ok u => simp [hg, h]

/-- C4 (counterexample): with the GM store holding the falsy value `false`
under "k" and default 42, `getValues` resolves "k" to the default 42 and not
to the stored `false`, refuting the claim that a stored value always wins
even when falsy. -/
theorem c4_falsy_stored_value_counterexample :
    (getValues (some ⟨true, true, false, false⟩)
        ⟨[("k", GMValue.boolean false)], []⟩ [] [("k", GMValue.num 42)]
        none false).outcome = POutcome.resolved [("k", GMValue.num 42)] ∧
    ¬ (getValues (some ⟨true, true, false, false⟩)
        ⟨[("k", GMValue.boolean false)], []⟩ [] [("k", GMValue.num 42)]
        none false).outcome
      = POutcome.resolved [("k", GMValue.boolean false)] :=
  ⟨rfl, by decide⟩

/-- C4 (amended): on the extension-store path with all per-key reads
succeeding, if the backend holds a TRUTHY value for k's physical key then the
resolved object maps k to that stored value and not to the default (a falsy
stored value — false, 0, or "" — is instead replaced by the default, per the
`if (value)` check in `getWithDefault`). -/
theorem c4_truthy_stored_value_wins (gmObj : Option Grants) (b : GMBackend)
    (ls : List (String × String)) (defaults : List (String × GMValue))
    (id : Option String) (k : String) (d v : GMValue)
    (hgrants : checkGrants gmObj [GrantName.getValue, GrantName.setValue]
      = true)
    (hnd : (defaults.map Prod.fst).Nodup)
    (hmem : defaults.lookup k = some d)
    (hreads : ∀ kv ∈ defaults,
      b.failing.contains (prefixKey kv.1 id) = false)
    (hstored : b.store.lookup (prefixKey k id) = some v)
    (htruthy : truthy v = true) :
    ∃ res, (getValues gmObj b ls defaults id false).outcome =
      POutcome.resolved res ∧ res.lookup k = some v := by
  have hmap : defaults.map
        (fun kv => (getWithDefault gmObj false b kv.1 kv.2 id).1)
      = defaults.map (fun kv =>
          POutcome.resolved (kv.1, reconciledValue b kv.1 kv.2 id)) :=
    List.map_congr_left (fun kv hkv =>
      getWithDefault_false_fst gmObj b kv.1 kv.2 id (hreads kv hkv))
  refine ⟨buildObj (defaults.map
      (fun kv => (kv.1, reconciledValue b kv.1 kv.2 id))), ?_, ?_⟩
  · simp only [getValues, hgrants, Bool.false_eq_true, if_false, if_true,
      gv_foldl_false, List.nil_append, hmap, promiseAll_map_resolved]
  · have hkeys : (defaults.map
        (fun kv => (kv.1, reconciledValue b kv.1 kv.2 id))).map Prod.fst
        = defaults.map Prod.fst := by
      simp [List.map_map, Function.comp]
    apply buildObj_lookup
    · rw [hkeys]
      exact hnd
    · rw [lookup_map_keyed (fun k2 v2 => reconciledValue b k2 v2 id)
        defaults k d hmem]
      unfold reconciledValue
      rw [hstored]
      simp [htruthy]

/-- C4 witness: the amended theorem at a concrete input — the stored truthy
string "stored" wins over the default 1. -/
theorem c4_truthy_stored_value_wins_witness :
    ∃ res, (getValues (some ⟨true, true, false, false⟩)
        ⟨[("k", GMValue.str "stored")], []⟩ [] [("k", GMValue.num 1)]
        none false).outcome = POutcome.resolved res ∧
      res.lookup "k" = some (GMValue.str "stored") :=
  c4_truthy_stored_value_wins (some ⟨true, true, false, false⟩)
    ⟨[("k", GMValue.str "stored")], []⟩ [] [("k", GMValue.num 1)] none "k"
    (GMValue.num 1) (GMValue.str "stored") (by decide) (by decide) (by decide)
    (by decide) (by decide) (by decide)

/-- C5 (counterexample): under the localStorage fallback with `setDefaults`
false, a missing default is NOT persisted — localStorage stays empty — even
though the result for the key is the default, refuting "written regardless of
the setDefaults argument". -/
theorem c5_local_default_not_persisted_counterexample :
    (getValues none ⟨[], []⟩ [] [("a", GMValue.str "x")] none false).ls
      = [] ∧
    (getValues none ⟨[], []⟩ [] [("a", GMValue.str "x")] none false).outcome
      = POutcome.resolved [("a", GMValue.str "x")] :=
  ⟨rfl, rfl⟩

/-- C5 (amended): under the localStorage fallback (grants check false, all
defaults strings, distinct keys), a key absent from localStorage resolves to
its default, and the default is written back to localStorage exactly when
`setDefaults` is true — not unconditionally. -/
theorem c5_local_default_persisted_iff_setDefaults (gmObj : Option Grants)
    (b : GMBackend) (ls : List (String × String))
    (defaults : List (String × GMValue)) (id : Option String)
    (setDefaults : Bool) (k : String) (d : GMValue)
    (hgr : (if setDefaults then checkGrants gmObj [GrantName.getValue]
        else checkGrants gmObj [GrantName.getValue, GrantName.setValue])
      = false)
    (hstr : (defaults.map (fun kv => kv.2)).all isString = true)
    (hnd : (defaults.map Prod.fst).Nodup)
    (hmem : defaults.lookup k = some d)
    (habs : ls.lookup k = none) :
    ∃ res, (getValues gmObj b ls defaults id setDefaults).outcome =
        POutcome.resolved res ∧ res.lookup k = some d ∧
      (getValues gmObj b ls defaults id setDefaults).ls.lookup k =
        (if setDefaults then some (jsToString d) else none) := by
  have hok : ensureString (defaults.map (fun kv => kv.2)) = Except.ok () := by
    unfold ensureString
    rw [hstr]
    simp
  have hfold := ls_fold_spec setDefaults defaults k d (ls, []) hnd hmem habs
  refine ⟨(defaults.foldl (lsStep setDefaults) (ls, [])).2, ?_, hfold.1, ?_⟩
  · simp [getValues, hgr, hok]
  · rw [show (getValues gmObj b ls defaults id setDefaults).ls =
        (defaults.foldl (lsStep setDefaults) (ls, [])).1 by
      simp [getValues, hgr, hok]]
    exact hfold.2

/-- C5 witness: the amended theorem at a concrete input — with `setDefaults`
true under the fallback, the missing default "x" is written to localStorage
and returned. -/
theorem c5_local_default_persisted_iff_setDefaults_witness :
    ∃ res, (getValues none ⟨[], []⟩ [] [("a", GMValue.str "x")] none
        true).outcome = POutcome.resolved res ∧ res.lookup "a" =
        some (GMValue.str "x") ∧
      (getValues none ⟨[], []⟩ [] [("a", GMValue.str "x")] none
        true).ls.lookup "a" =
        (if true then some (jsToString (GMValue.str "x")) else none) :=
  c5_local_default_persisted_iff_setDefaults none ⟨[], []⟩ []
    [("a", GMValue.str "x")] none true "a" (GMValue.str "x") (by decide)
    (by decide) (by decide) (by decide) (by decide)

/-- C6: `deleteValue` with the key present (and a cooperating backend) deletes
the physical key from the selected backend, removes the logical key from the
object, and resolves with that mutated object, from which the key is absent;
with the key absent it rejects with no payload and changes nothing. -/
theorem c6_deleteValue_spec (gmObj : Option Grants) (b : GMBackend)
    (ls : List (String × String)) (values : List (String × GMValue))
    (toDelete : String) (id : Option String) :
    (hasKey values toDelete = true →
      b.failing.contains (prefixKey toDelete id) = false →
      (deleteValue gmObj b ls values toDelete id).outcome =
          POutcome.resolved (removeKey values toDelete) ∧
        (deleteValue gmObj b ls values toDelete id).valuesAfter =
          removeKey values toDelete ∧
        (removeKey values toDelete).lookup toDelete = none ∧
        (if checkGrants gmObj [GrantName.deleteValue] = true then
          (deleteValue gmObj b ls values toDelete id).gm.store.lookup
              (prefixKey toDelete id) = none ∧
            (deleteValue gmObj b ls values toDelete id).ls = ls
        else
          (deleteValue gmObj b ls values toDelete id).gm = b ∧
            (deleteValue gmObj b ls values toDelete id).ls.lookup
              (prefixKey toDelete id) = none)) ∧
    (hasKey values toDelete = false →
      deleteValue gmObj b ls values toDelete id =
        ⟨POutcome.rejected none, b, ls, values⟩) := by
  constructor
  · intro hin hf
    by_cases hg : checkGrants gmObj [GrantName.deleteValue] = true
    · have hdel : gmDeleteValue b (prefixKey toDelete id) =
          Except.ok ⟨removeKey b.store (prefixKey toDelete id), b.failing⟩ := by
        unfold gmDeleteValue
        rw [hf]
        simp
      simp [deleteValue, hin, hg, hdel, removeKey_lookup_self]
    · simp only [Bool.not_eq_true] at hg
      simp [deleteValue, hin, hg, removeKey_lookup_self]
  · intro hout
    simp [deleteValue, hout]

/-- C6 witness: the theorem at a concrete input — deleting present key "k"
under namespace "ns" with the `deleteValue` grant resolves with the object
minus "k". -/
theorem c6_deleteValue_spec_witness :
    (deleteValue (some ⟨false, false, true, false⟩)
        ⟨[("ns.k", GMValue.str "v")], []⟩ [] [("k", GMValue.str "v")] "k"
        (some "ns")).outcome =
      POutcome.resolved (removeKey [("k", GMValue.str "v")] "k") :=
  ((c6_deleteValue_spec (some ⟨false, false, true, false⟩)
      ⟨[("ns.k", GMValue.str "v")], []⟩ [] [("k", GMValue.str "v")] "k"
      (some "ns")).1 (by decide) (by decide)).1

/-- C7 (counterexample): through a `valuesProxy` without the `setValue` grant,
assigning the non-string 5 to the PRESENT key "k" throws a TypeError: the set
trap neither updates the object nor dispatches a backend write, refuting the
claim that every write to a present key updates the object and dispatches
exactly one backend write. -/
theorem c7_nonstring_localStorage_write_throws :
    valuesProxySet none ⟨[], []⟩ [] [("k", GMValue.str "a")] none "k"
        (GMValue.num 5) =
      ⟨Except.error (JsErr.typeError
        "Only strings are supported for values when localStorage is being used"),
        [("k", GMValue.str "a")], ⟨[], []⟩, [], 0⟩ :=
  rfl

/-- C7 (amended): a write through `valuesProxy` to a present key updates the
object synchronously and dispatches exactly one backend write — for every
value on the extension path, and for string values on the localStorage path;
a non-string write on the localStorage path throws a TypeError, changing
nothing; a write to an absent key returns false and changes nothing. -/
theorem c7_valuesProxy_set_spec (gmObj : Option Grants) (b : GMBackend)
    (ls : List (String × String)) (values : List (String × GMValue))
    (id : Option String) (prop : String) (value : GMValue) :
    (hasKey values prop = true →
      checkGrants gmObj [GrantName.setValue] = true →
      valuesProxySet gmObj b ls values id prop value =
        ⟨Except.ok true, setAssoc values prop value,
          (match gmSetValue b (prefixKey prop id) value with
            | Except.ok nb => nb
            | Except.error _ => b), ls, 1⟩ ∧
      (setAssoc values prop value).lookup prop = some value) ∧
    (hasKey values prop = true →
      checkGrants gmObj [GrantName.setValue] = false →
      isString value = true →
      valuesProxySet gmObj b ls values id prop value =
        ⟨Except.ok true, setAssoc values prop value, b,
          setAssoc ls (prefixKey prop id) (jsToString value), 1⟩ ∧
      (setAssoc values prop value).lookup prop = some value) ∧
    (hasKey values prop = true →
      checkGrants gmObj [GrantName.setValue] = false →
      isString value = false →
      valuesProxySet gmObj b ls values id prop value =
        ⟨Except.error (JsErr.typeError
          "Only strings are supported for values when localStorage is being used"),
          values, b, ls, 0⟩) ∧
    (hasKey values prop = false →
      valuesProxySet gmObj b ls values id prop value =
        ⟨Except.ok false, values, b, ls, 0⟩) := by
  refine ⟨?_, ?_, ?_, ?_⟩
  · intro hin hg
    refine ⟨?_, setAssoc_lookup_self values prop value⟩
    simp [valuesProxySet, hin, hg]
  · intro hin hg hstr
    have hok : ensureString [value] = Except.ok () := by
      unfold ensureString
      simp [hstr]
    refine ⟨?_, setAssoc_lookup_self values prop value⟩
    simp [valuesProxySet, hin, hg, hok]
  · intro hin hg hstr
    have herr : ensureString [value] = Except.error (JsErr.typeError
        "Only strings are supported for values when localStorage is being used") := by
      unfold ensureString
      simp [hstr]
    simp [valuesProxySet, hin, hg, herr]
  · intro hout
    simp [valuesProxySet, hout]

/-- C7 witness: the amended theorem at a concrete input — with the `setValue`
grant, assigning 5 to present key "k" returns true, updates the object and
dispatches one backend write. -/
theorem c7_valuesProxy_set_spec_witness :
    valuesProxySet (some ⟨false, true, false, false⟩) ⟨[], []⟩ []
        [("k", GMValue.str "a")] none "k" (GMValue.num 5) =
      ⟨Except.ok true, setAssoc [("k", GMValue.str "a")] "k" (GMValue.num 5),
        (match gmSetValue ⟨[], []⟩ (prefixKey "k" none) (GMValue.num 5) with
          | Except.ok nb => nb
          | Except.error _ => ⟨[], []⟩), [], 1⟩ :=
  ((c7_valuesProxy_set_spec (some ⟨false, true, false, false⟩) ⟨[], []⟩ []
      [("k", GMValue.str "a")] none "k" (GMValue.num 5)).1 (by decide)
      (by decide)).1

/-- C8: a read through `valuesGetProxy` of a key present in the wrapped object
performs a fresh backend read of the physical key — resolving with a defined
GM value, rejecting with no payload on an `undefined` GM value or a null
localStorage value — a key absent from the wrapped object rejects with no
payload, and the set trap refuses every write unconditionally. -/
theorem c8_valuesGetProxy_spec (gmObj : Option Grants) (b : GMBackend)
    (ls : List (String × String)) (values : List (String × GMValue))
    (id : Option String) (prop : String) (v : GMValue) (s : String) :
    (hasKey values prop = true →
      checkGrants gmObj [GrantName.getValue] = true →
      b.failing.contains (prefixKey prop id) = false →
      (b.store.lookup (prefixKey prop id) = some v →
        valuesGetProxyGet gmObj b ls values id prop =
          POutcome.resolved v) ∧
      (b.store.lookup (prefixKey prop id) = none →
        valuesGetProxyGet gmObj b ls values id prop =
          POutcome.rejected none)) ∧
    (hasKey values prop = true →
      checkGrants gmObj [GrantName.getValue] = false →
      (ls.lookup (prefixKey prop id) = some s →
        valuesGetProxyGet gmObj b ls values id prop =
          POutcome.resolved (GMValue.str s)) ∧
      (ls.lookup (prefixKey prop id) = none →
        valuesGetProxyGet gmObj b ls values id prop =
          POutcome.rejected none)) ∧
    (hasKey values prop = false →
      valuesGetProxyGet gmObj b ls values id prop =
        POutcome.rejected none) ∧
    valuesGetProxySet values prop v = false := by
  refine ⟨?_, ?_, ?_, rfl⟩
  · intro hin hg hf
    have hread : gmGetValue b (prefixKey prop id) =
        Except.ok (b.store.lookup (prefixKey prop id)) := by
      unfold gmGetValue
      rw [hf]
      simp
    constructor
    · intro hv
      simp [valuesGetProxyGet, hin, hg, hread, hv]
    · intro hv
      simp [valuesGetProxyGet, hin, hg, hread, hv]
  · intro hin hg
    constructor
    · intro hv
      simp [valuesGetProxyGet, hin, hg, hv]
    · intro hv
      simp [valuesGetProxyGet, hin, hg, hv]
  · intro hout
    simp [valuesGetProxyGet, hout]

/-- C8 witness: the theorem at a concrete input — reading present key "k"
under namespace "ns" resolves with the GM-stored value `false` (defined, so
resolved even though falsy). -/
theorem c8_valuesGetProxy_spec_witness :
    valuesGetProxyGet (some ⟨true, false, false, false⟩)
        ⟨[("ns.k", GMValue.boolean false)], []⟩ [] [("k", GMValue.str "a")]
        (some "ns") "k" = POutcome.resolved (GMValue.boolean false) :=
  ((c8_valuesGetProxy_spec (some ⟨true, false, false, false⟩)
      ⟨[("ns.k", GMValue.boolean false)], []⟩ [] [("k", GMValue.str "a")]
      (some "ns") "k" (GMValue.boolean false) "").1 (by decide) (by decide)
      (by decide)).1 (by decide)

/-- C9: when the grants check selects the localStorage fallback and some
default value is not a string, `getValues` rejects with the TypeError and
performs no storage access: the GM store and localStorage are returned
exactly as given. -/
theorem c9_local_nonstring_rejects_before_storage (gmObj : Option Grants)
    (b : GMBackend) (ls : List (String × String))
    (defaults : List (String × GMValue)) (id : Option String)
    (setDefaults : Bool)
    (hgr : (if setDefaults then checkGrants gmObj [GrantName.getValue]
        else checkGrants gmObj [GrantName.getValue, GrantName.setValue])
      = false)
    (hbad : (defaults.map (fun kv => kv.2)).all isString = false) :
    getValues gmObj b ls defaults id setDefaults =
      ⟨POutcome.rejected (some (JsErr.typeError
        "Only strings are supported for values when localStorage is being used")),
        b, ls, defaults⟩ := by
  have herr : ensureString (defaults.map (fun kv => kv.2)) =
      Except.error (JsErr.typeError
        "Only strings are supported for values when localStorage is being used") := by
    unfold ensureString
    rw [hbad]
    simp
  simp [getValues, hgr, herr]

/-- C9 witness: the theorem at a concrete input — `getValues({n: 0})` with no
GM object rejects with the TypeError and leaves both stores untouched. -/
theorem c9_local_nonstring_rejects_before_storage_witness :
    getValues none ⟨[], []⟩ [] [("n", GMValue.num 0)] none false =
      ⟨POutcome.rejected (some (JsErr.typeError
        "Only strings are supported for values when localStorage is being used")),
        ⟨[], []⟩, [], [("n", GMValue.num 0)]⟩ :=
  c9_local_nonstring_rejects_before_storage none ⟨[], []⟩ []
    [("n", GMValue.num 0)] none false (by decide) (by decide)

end GreaseTools
